import Mathlib

set_option maxRecDepth 16000
set_option exponentiation.threshold 1100

/-!
Verification of the perimeter backend's ingestion and aggregation engine.

Shallow embedding of `src/backend/app` (Python) in Lean 4:

* `app/models/attack_event.py`   -> `Location`, `AttackEvent`
* `app/models/historical.py`     -> `HistoricalSummary`, `CountryStats`
* `app/services/abuseipdb.py`    -> `calculate_severity`
* `app/services/otx.py`          -> `map_tags_to_attack_type`,
  `calculate_severity_from_pulse`, `extract_confidence_from_pulse`,
  `OTXClient.is_cache_valid`, cache state
* `app/services/historical_data.py` -> `HistoricalDataStore`,
  `fetch_and_aggregate`, `generate_synthetic_data`, query operations
* `app/config.py`                -> the `Settings` constants used above

Modelling conventions: Python floats are embedded as `ℚ` (all arithmetic in
these functions is exact decimal arithmetic on small values, so rational
arithmetic agrees with the float execution on every comparison the code
makes); Python `int` is `Int`; Python dicts are insertion-ordered association
lists with update-in-place-or-append assignment; the random module is an
explicit oracle (`Rng`) supplying the draws; network fetches are inputs
(the provider's response list is a parameter); wall-clock instants are
seconds since an arbitrary origin (`Nat`).

The file is laid out as: all definitions first, then the supporting lemmas,
then the claim theorems and their witnesses.
-/

/-! ## Association lists: Python `dict` semantics (insertion ordered) -/

/-- `d.get(k)` on a Python dict represented as an insertion-ordered
association list. -/
def alookup {α : Type} (m : List (String × α)) (k : String) : Option α :=
  match m with
  | [] => none
  | (k', v) :: rest => if k' = k then some v else alookup rest k

/-- `d[k] = v` on a Python dict: update the existing entry in place, else
append a new entry at the end. -/
def aset {α : Type} (m : List (String × α)) (k : String) (v : α) :
    List (String × α) :=
  match m with
  | [] => [(k, v)]
  | (k', v') :: rest =>
    if k' = k then (k, v) :: rest else (k', v') :: aset rest k v

/-- Sum of the values of a counting dict. -/
def sumVals (m : List (String × Nat)) : Nat := (m.map Prod.snd).sum

/-- `defaultdict(int)` increment: `d[k] += 1`. -/
def bumpKey (m : List (String × Nat)) (k : String) : List (String × Nat) :=
  match m with
  | [] => [(k, 1)]
  | (k', v) :: rest =>
    if k' = k then (k', v + 1) :: rest else (k', v) :: bumpKey rest k

/-! ## Configuration (`app/config.py`) -/

/-- `Settings.OTX_CACHE_TTL`: cache OTX data for 1 hour. -/
def OTX_CACHE_TTL : Nat := 3600

/-! ## Canonical event model (`app/models/attack_event.py`) -/

structure Location where
  country : String
  lat : ℚ
  lng : ℚ
deriving DecidableEq, Repr

structure AttackEvent where
  id : String
  source : Location
  target : Location
  type : String
  severity : Int
  confidence : ℚ
  timestamp : Int
deriving DecidableEq, Repr

/-- Pydantic construction of `AttackEvent` (`app/models/attack_event.py`):
the model declares typed fields only and defines no validators, so every
type-correct field assignment constructs successfully (pydantic rejects only
values of the wrong type, which the Lean types rule out by construction). -/
def AttackEvent.construct (id : String) (source target : Location)
    (type : String) (severity : Int) (confidence : ℚ) (timestamp : Int) :
    Option AttackEvent :=
  some { id := id, source := source, target := target, type := type,
         severity := severity, confidence := confidence,
         timestamp := timestamp }

/-! ## Derived models (`app/models/historical.py`) -/

structure HistoricalSummary where
  date : String
  total_events : Nat
  events_by_country : List (String × Nat)
  events_by_type : List (String × Nat)
  avg_severity : ℚ
deriving DecidableEq, Repr

structure CountryStats where
  country : String
  total_events : Nat
  avg_severity : ℚ
  attack_types : List (String × Nat)
deriving DecidableEq, Repr

/-! ## IEEE-754 binary64 arithmetic (for `abuseipdb.py`'s float code)

`calculate_severity` in `abuseipdb.py` computes with Python floats, and its
results genuinely depend on double rounding (`0.6 + 0.3` evaluates to the
double just below `0.9`), so its embedding models binary64 arithmetic
exactly.  A finite double is a dyadic number `m * 2 ^ e` with `m = 0` or
`2 ^ 52 ≤ |m| < 2 ^ 53`; rounding is round-to-nearest, ties to even.  All
quantities this pipeline produces are either zero or normal (quotients of
converted integers by 100 and their sums never reach the subnormal range),
and the two int-to-float entry points check Python's `OverflowError`
condition (`|value| ≥ 2 ^ 1024 - 2 ^ 970`, the point from which rounding
would give infinity) *before* normalizing, so every natural number the
rounding helper normalizes has fewer than 4400 bits — the bit-length
helper's fuel.  The model was cross-checked against CPython on the full
grid `[0,100] × [0,100]` and thousands of random and boundary inputs. -/

/-- Bit-counting worker, structurally recursive on fuel so the kernel can
evaluate it. -/
def natBitsAux : Nat → Nat → Nat
  | 0, _ => 0
  | fuel+1, n => if n = 0 then 0 else natBitsAux fuel (n / 2) + 1

/-- Bit length of `n` (exact for `n < 2 ^ 4400`, which covers every value
reaching the rounding helper, see the section comment). -/
def natBits (n : Nat) : Nat := natBitsAux 4400 n

/-- Round the positive rational `a / b` (`a, b ≥ 1`) to 53 significant
bits, ties to even: returns `(m, e)` with `2 ^ 52 ≤ m < 2 ^ 53` and
`m * 2 ^ e` the correctly rounded value. -/
def divRound53 (a b : Nat) : Nat × Int :=
  let ba := natBits a
  let bb := natBits b
  let s : Int := 54 - (ba : Int) + (bb : Int)
  let A := a * 2 ^ s.toNat
  let B := b * 2 ^ (-s).toNat
  let q := A / B
  let sticky := A % B != 0
  let t : Nat × Bool × Bool × Int :=
    if q < 2 ^ 54 then (q / 2, q % 2 == 1, sticky, 1 - s)
    else (q / 4, (q / 2) % 2 == 1, sticky || q % 2 == 1, 2 - s)
  let m := if t.2.1 && (t.2.2.1 || t.1 % 2 == 1) then t.1 + 1 else t.1
  if m = 2 ^ 53 then (2 ^ 52, t.2.2.2 + 1) else (m, t.2.2.2)

/-- A finite IEEE-754 binary64 value `m * 2 ^ e` (`m = 0`, or
`2 ^ 52 ≤ |m| < 2 ^ 53` when produced by the rounding helper). -/
structure F64 where
  m : Int
  e : Int
deriving DecidableEq, Repr

/-- Correctly rounded double of `n / den * 2 ^ eoff` (`den ≥ 1`). -/
def froundInt (n : Int) (den : Nat) (eoff : Int) : F64 :=
  if n = 0 then ⟨0, 0⟩
  else
    let me := divRound53 n.natAbs den
    ⟨if n < 0 then -(me.1 : Int) else (me.1 : Int), me.2 + eoff⟩

/-- Python `float(n)` for an int `n`: correctly rounded conversion;
`none` models the `OverflowError` CPython raises when the rounded value
would be infinite. -/
def floatOfInt (n : Int) : Option F64 :=
  if n.natAbs ≥ 2 ^ 1024 - 2 ^ 970 then none
  else some (froundInt n 1 0)

/-- Python `n / den` for ints (`den ≥ 1`): correctly rounded true
division; `none` models the `OverflowError` raised when the result would
be infinite. -/
def pyIntTrueDiv (n : Int) (den : Nat) : Option F64 :=
  if n.natAbs ≥ den * (2 ^ 1024 - 2 ^ 970) then none
  else some (froundInt n den 0)

/-- Binary64 division `x / y` (`y ≠ 0`; quotient in the normal range, as
holds for every division this code performs). -/
def fdiv (x y : F64) : F64 :=
  froundInt (if y.m < 0 then -x.m else x.m) y.m.natAbs (x.e - y.e)

/-- Binary64 addition: the exact dyadic sum, rounded (result in the normal
range, as holds for every addition this code performs). -/
def fadd (x y : F64) : F64 :=
  let E := min x.e y.e
  froundInt (x.m * 2 ^ (x.e - E).toNat + y.m * 2 ^ (y.e - E).toNat) 1 E

/-- Binary64 `x <= y` (finite values compare by exact value). -/
def fle (x y : F64) : Bool :=
  let E := min x.e y.e
  x.m * 2 ^ (x.e - E).toNat ≤ y.m * 2 ^ (y.e - E).toNat

/-- Binary64 `x < y`. -/
def flt (x y : F64) : Bool :=
  let E := min x.e y.e
  x.m * 2 ^ (x.e - E).toNat < y.m * 2 ^ (y.e - E).toNat

/-- Python `min(x, y)` on floats: `y` if `y < x`, else `x`. -/
def fmin (x y : F64) : F64 := if flt y x then y else x

/-- The double denoted by the decimal literal `a / b` in the source
(CPython parses float literals to the nearest double). -/
def floatLit (a b : Nat) : F64 := froundInt a b 0

/-! ## Blacklist adapter severity (`app/services/abuseipdb.py`) -/

/-- `calculate_severity(abuse_confidence_score, total_reports)`, in the
float arithmetic the source actually performs: `c / 100.0` converts `c` to
a double (possible `OverflowError`, modelled as `none`) and divides by
`100.0`; `total_reports / 100` is int true division (possible
`OverflowError`); the bonus is capped at `0.5`; the thresholds compare
against the doubles denoted by the literals `1.2`, `0.9`, `0.6`, `0.3`. -/
def calculate_severity (abuse_confidence_score : Int)
    (total_reports : Int) : Option Int :=
  match floatOfInt abuse_confidence_score with
  | none => none
  | some cF =>
    let base_score := fdiv cF (floatLit 100 1)
    match pyIntTrueDiv total_reports 100 with
    | none => none
    | some rF =>
      let report_bonus := fmin rF (floatLit 1 2)
      let combined := fadd base_score report_bonus
      some (if fle (floatLit 12 10) combined then 5
            else if fle (floatLit 9 10) combined then 4
            else if fle (floatLit 6 10) combined then 3
            else if fle (floatLit 3 10) combined then 2
            else 1)

/-! ## Pulse adapter classification (`app/services/otx.py`) -/

/-- An OTX indicator as used by the code: only its `type` field is read
(`ind.get("type")`, possibly absent). -/
structure Indicator where
  type : Option String
deriving DecidableEq, Repr

/-- An OTX pulse as used by the code: `pulse.get("id")`, `pulse.get("tlp",
"white")`, `pulse.get("tags", [])`, `pulse.get("indicators", [])`,
`pulse.get("created")`.  The `created` ISO-8601 string is abstracted to its
parsed epoch-milliseconds value (`none` both for an absent and for an
unparseable creation time, in which case the code falls back to the target
date's timestamp). -/
structure Pulse where
  id : Option String
  tlp : Option String
  created : Option Int
  tags : List String
  indicators : List Indicator
deriving DecidableEq, Repr

/-- `TAG_TO_ATTACK_TYPE` table, in source order. -/
def TAG_TO_ATTACK_TYPE : List (String × String) :=
  [("ddos", "ddos"), ("dos", "ddos"), ("botnet", "bot"), ("bot", "bot"),
   ("malware", "bot"), ("bruteforce", "bruteforce"),
   ("brute-force", "bruteforce"), ("ssh", "bruteforce"),
   ("ftp", "bruteforce"), ("rdp", "bruteforce"), ("scan", "ddos"),
   ("exploit", "bot")]

/-- Python `sub in s` substring test (all patterns used are non-empty). -/
def strContains (s pat : String) : Bool := (s.splitOn pat).length != 1

/-- Python `s.lower()`, as a per-character map (every string the source
lowercases is ASCII, where the two agree). -/
def pyLower (s : String) : String := ⟨s.data.map Char.toLower⟩

/-- The per-tag substring heuristics of `map_tags_to_attack_type`'s second
loop, in source order. -/
def fallbackType (t : String) : Option String :=
  if strContains t "ddos" || strContains t "flood" ||
      strContains t "amplification" then some "ddos"
  else if strContains t "brute" || strContains t "password" ||
      strContains t "login" then some "bruteforce"
  else if strContains t "bot" || strContains t "trojan" ||
      strContains t "rat" then some "bot"
  else none

/-- `map_tags_to_attack_type(tags)`. -/
def map_tags_to_attack_type (tags : List String) : String :=
  if tags.isEmpty then "ddos"
  else
    let tags_lower := tags.map pyLower
    match tags_lower.findSome? (fun t => alookup TAG_TO_ATTACK_TYPE t) with
    | some ty => ty
    | none => (tags_lower.findSome? fallbackType).getD "ddos"

/-- `tlp_scores.get(tlp, 2)` in `calculate_severity_from_pulse`. -/
def tlpScores (tlp : String) : ℚ :=
  if tlp = "red" then 5
  else if tlp = "amber" then 4
  else if tlp = "green" then 3
  else if tlp = "white" then 2
  else 2

/-- `critical_tags` list in `calculate_severity_from_pulse`. -/
def criticalTags : List String := ["apt", "critical", "high", "severe", "targeted"]

/-- Python `int()` on a rational: truncation toward zero. -/
def pyTrunc (q : ℚ) : Int := q.num.tdiv (q.den : Int)

/-- The running `base_severity` of `calculate_severity_from_pulse` after the
TLP base, the indicator-count boost and the critical-tag boost. -/
def pulseBaseSeverity (pulse : Pulse) : ℚ :=
  let tlp := pyLower (pulse.tlp.getD "white")
  let indicator_count := pulse.indicators.length
  let tags := pulse.tags
  let b1 : ℚ := tlpScores tlp
  let b2 : ℚ :=
    if indicator_count > 100 then min 5 (b1 + 1)
    else if indicator_count > 50 then min 5 (b1 + 1/2)
    else b1
  if tags.any (fun t => criticalTags.contains (pyLower t)) then min 5 (b2 + 1)
  else b2

/-- `calculate_severity_from_pulse(pulse)`: final clamp
`max(1, min(5, int(base_severity)))`. -/
def calculate_severity_from_pulse (pulse : Pulse) : Int :=
  max 1 (min 5 (pyTrunc (pulseBaseSeverity pulse)))

/-- `tlp_confidence.get(tlp, 0.6)` in `extract_confidence_from_pulse`. -/
def tlpConfidence (tlp : String) : ℚ :=
  if tlp = "red" then 9/10
  else if tlp = "amber" then 8/10
  else if tlp = "green" then 7/10
  else if tlp = "white" then 6/10
  else 6/10

/-- Python `round(q, 2)`.  Every value this code rounds is an exact multiple
of 1/100, so the result is exact and the tie-breaking rule never fires. -/
def round2 (q : ℚ) : ℚ := ((round (q * 100) : ℤ) : ℚ) / 100

/-- `extract_confidence_from_pulse(pulse)`. -/
def extract_confidence_from_pulse (pulse : Pulse) : ℚ :=
  let tlp := pyLower (pulse.tlp.getD "white")
  let indicator_count := pulse.indicators.length
  let b1 : ℚ := tlpConfidence tlp
  let b2 : ℚ :=
    if indicator_count > 50 then min 1 (b1 + 1/10)
    else if indicator_count < 5 then max (1/2) (b1 - 1/10)
    else b1
  round2 b2

/-! ## OTX cache layer (`app/services/otx.py`, `OTXClient`) -/

/-- The cache state of one `OTXClient`: `_pulse_cache` and
`_cache_timestamps` (timestamps in seconds since an arbitrary origin). -/
structure OTXCacheState where
  pulse_cache : List (String × Pulse)
  cache_timestamps : List (String × Nat)
deriving DecidableEq, Repr

/-- `.seconds` of the Python `timedelta` between two instants `elapsed`
whole seconds apart (`now ≥ cache_time`): the seconds-within-day component,
`elapsed % 86400`, not the total elapsed seconds. -/
def timedelta_seconds (elapsed : Nat) : Nat := elapsed % 86400

/-- `OTXClient._is_cache_valid(pulse_id)` evaluated at wall-clock instant
`now`: `(datetime.now() - cache_time).seconds < settings.OTX_CACHE_TTL`. -/
def OTXClient.is_cache_valid (st : OTXCacheState) (pulse_id : String)
    (now : Nat) : Bool :=
  match alookup st.cache_timestamps pulse_id with
  | none => false
  | some cache_time => timedelta_seconds (now - cache_time) < OTX_CACHE_TTL

/-- The cache-consultation step of `OTXClient.get_pulse_by_id`: when the
validity check passes the cached pulse is returned; `none` means the call
falls through to the network path (IO, outside this embedding). -/
def OTXClient.get_pulse_by_id_cached (st : OTXCacheState) (pulse_id : String)
    (now : Nat) : Option Pulse :=
  if OTXClient.is_cache_valid st pulse_id now then
    alookup st.pulse_cache pulse_id
  else none

/-! ## Random oracle

The Python `random` module is modelled as explicit streams of draws plus a
position, advanced once per draw; `uuid.uuid4()` is a stream of fresh
identifier strings drawn from the same supply. -/

structure Rng where
  nats : Nat → Nat
  rats : Nat → ℚ
  ids : Nat → String
  pos : Nat

def Rng.nextNat (r : Rng) : Nat × Rng :=
  (r.nats r.pos, { r with pos := r.pos + 1 })

def Rng.nextRat (r : Rng) : ℚ × Rng :=
  (r.rats r.pos, { r with pos := r.pos + 1 })

def Rng.nextId (r : Rng) : String × Rng :=
  (r.ids r.pos, { r with pos := r.pos + 1 })

/-- `random.choice(l)` driven by the draw `n` (always called on non-empty
lists in the source). -/
def randChoice (l : List String) (n : Nat) : String := l.getD (n % l.length) ""

/-- `random.randint(lo, hi)` driven by the draw `n`: a value in `[lo, hi]`. -/
def randint (lo hi : Nat) (n : Nat) : Nat := lo + n % (hi + 1 - lo)

/-- `random.uniform(a, b)` driven by the draw `q`: an arbitrary in-range
value (the clamp realizes the support `[a, b]`; the distribution is
irrelevant to the properties proved here). -/
def uniform (a b q : ℚ) : ℚ := min b (max a q)

/-! ## Historical data store (`app/services/historical_data.py`) -/

/-- `COUNTRY_LOCATIONS`, in source insertion order. -/
def COUNTRY_LOCATIONS : List (String × ℚ × ℚ) :=
  [("US", 37.7749, -95.7129), ("CN", 35.9042, 104.1954),
   ("RU", 61.5240, 105.3188), ("IN", 20.5937, 78.9629),
   ("BR", -14.2350, -51.9253), ("JP", 36.2048, 138.2529),
   ("DE", 51.1657, 10.4515), ("GB", 55.3781, -3.4360),
   ("FR", 46.2276, 2.2137), ("AU", -25.2744, 133.7751),
   ("CA", 56.1304, -106.3468), ("KR", 35.9078, 127.7669),
   ("IT", 41.8719, 12.5674), ("ES", 40.4637, -3.7492),
   ("MX", 23.6345, -102.5528), ("NL", 52.1326, 5.2913),
   ("SE", 60.1282, 18.6435), ("PL", 51.9194, 19.1451),
   ("TR", 38.9637, 35.2433), ("UA", 48.3794, 31.1656),
   ("IR", 32.4279, 53.6880), ("KP", 40.3399, 127.5101),
   ("VN", 14.0583, 108.2772), ("TH", 15.8700, 100.9925),
   ("ID", -0.7893, 113.9213)]

/-- `list(COUNTRY_LOCATIONS.keys())`. -/
def countryKeys : List String := COUNTRY_LOCATIONS.map Prod.fst

/-- `COUNTRY_LOCATIONS[c]` (always called with a key of the table). -/
def countryLoc (c : String) : ℚ × ℚ :=
  (alookup COUNTRY_LOCATIONS c).getD (0, 0)

/-- Build the `source`/`target` location dict of one event: the country's
reference coordinate plus `random.uniform(-2, 2)` jitter on each axis. -/
def mkLocation (c : String) (rng : Rng) : Location × Rng :=
  let loc := countryLoc c
  let (j1, rng) := rng.nextRat
  let (j2, rng) := rng.nextRat
  ({ country := c, lat := loc.1 + uniform (-2) 2 j1,
     lng := loc.2 + uniform (-2) 2 j2 }, rng)

/-- One iteration of the per-indicator event loop in `fetch_and_aggregate`:
a fresh uuid, a random source country, a random target country drawn from
the keys different from the source, jittered locations, and the pulse-level
classification results. -/
def mkPulseEvent (attack_type : String) (severity : Int) (confidence : ℚ)
    (timestamp : Int) (rng : Rng) : AttackEvent × Rng :=
  let (eid, rng) := rng.nextId
  let (n1, rng) := rng.nextNat
  let source_country := randChoice countryKeys n1
  let (n2, rng) := rng.nextNat
  let target_country :=
    randChoice (countryKeys.filter (fun c => c ≠ source_country)) n2
  let (src, rng) := mkLocation source_country rng
  let (tgt, rng) := mkLocation target_country rng
  ({ id := eid, source := src, target := tgt, type := attack_type,
     severity := severity, confidence := confidence,
     timestamp := timestamp }, rng)

/-- One iteration of the synthetic-event loop in `_generate_synthetic_data`. -/
def mkSyntheticEvent (date_ts : Int) (rng : Rng) : AttackEvent × Rng :=
  let (eid, rng) := rng.nextId
  let (n1, rng) := rng.nextNat
  let source_country := randChoice countryKeys n1
  let (n2, rng) := rng.nextNat
  let target_country :=
    randChoice (countryKeys.filter (fun c => c ≠ source_country)) n2
  let (src, rng) := mkLocation source_country rng
  let (tgt, rng) := mkLocation target_country rng
  let (n3, rng) := rng.nextNat
  let type := randChoice ["ddos", "bot", "bruteforce"] n3
  let (n4, rng) := rng.nextNat
  let severity : Int := (randint 1 5 n4 : Nat)
  let (q, rng) := rng.nextRat
  let confidence := uniform (1/2) 1 q
  ({ id := eid, source := src, target := tgt, type := type,
     severity := severity, confidence := confidence,
     timestamp := date_ts }, rng)

/-- Append one freshly built event to the accumulated list (the loop bodies
never read the loop variable, only the random state). -/
def snocEvent (mk : Rng → AttackEvent × Rng) (acc : List AttackEvent × Rng) :
    List AttackEvent × Rng :=
  (acc.1 ++ [(mk acc.2).1], (mk acc.2).2)

/-- The store state: `events_by_date` and `_processed_pulse_ids` (the
processed set is kept in insertion order; only membership is ever used).
The embedded element type is `Option String` because the code inserts
`pulse.get("id")`, which may be `None`. -/
structure HistoricalDataStore where
  events_by_date : List (String × List AttackEvent)
  processed_pulse_ids : List (Option String)

/-- `ind.get("type") in ["IPv4", "IPv6"]`. -/
def isIPIndicator (ind : Indicator) : Bool :=
  ind.type = some "IPv4" || ind.type = some "IPv6"

/-- The state threaded through the pulse loop of `fetch_and_aggregate`. -/
structure FetchLoopState where
  events : List AttackEvent
  processed : List (Option String)
  rng : Rng

/-- One iteration of the pulse loop of `fetch_and_aggregate`: skip pulses
already in the dedup set; skip pulses with no IP-typed indicators (without
touching the dedup set); otherwise classify the pulse, emit one event per
IP indicator capped at 5 (`ip_indicators[:5]`), and append the pulse id to
the dedup set. -/
def processPulse (target_ts : Int) (st : FetchLoopState) (pulse : Pulse) :
    FetchLoopState :=
  if pulse.id ∈ st.processed then st
  else
    let ip_indicators := pulse.indicators.filter isIPIndicator
    if ip_indicators.isEmpty then st
    else
      let attack_type := map_tags_to_attack_type pulse.tags
      let severity := calculate_severity_from_pulse pulse
      let confidence := extract_confidence_from_pulse pulse
      let pulse_timestamp := pulse.created.getD target_ts
      let folded := (ip_indicators.take 5).foldl
        (fun acc _ =>
          snocEvent (mkPulseEvent attack_type severity confidence
            pulse_timestamp) acc)
        ([], st.rng)
      { events := st.events ++ folded.1,
        processed := st.processed ++ [pulse.id], rng := folded.2 }

/-- The event list built by `_generate_synthetic_data`:
`random.randint(30, 80)` events, each from `mkSyntheticEvent`. -/
def generate_synthetic_events (date_ts : Int) (rng : Rng) :
    List AttackEvent × Rng :=
  let (n, rng) := rng.nextNat
  let num_events := randint 30 80 n
  (List.range num_events).foldl
    (fun acc _ => snocEvent (mkSyntheticEvent date_ts) acc) ([], rng)

/-- `HistoricalDataStore._generate_synthetic_data(date_str)`: store the
synthetic event list under `date_str` (`date_ts` abstracts
`datetime.strptime(date_str, "%Y-%m-%d").timestamp() * 1000`). -/
def generate_synthetic_data (store : HistoricalDataStore) (date_str : String)
    (date_ts : Int) (rng : Rng) : HistoricalDataStore :=
  { store with
    events_by_date := aset store.events_by_date date_str
      (generate_synthetic_events date_ts rng).1 }

/-- `HistoricalDataStore.fetch_and_aggregate(target_date)`.  `pulses` is the
response of `self.otx_client.get_pulses_subscribed(...)` (the network fetch
is an input of the embedding; an API failure or missing key yields `[]`);
`date_str` abstracts `target_date.strftime("%Y-%m-%d")` and `target_ts` the
fallback timestamp `target_date.timestamp() * 1000`. -/
def fetch_and_aggregate (store : HistoricalDataStore) (pulses : List Pulse)
    (date_str : String) (target_ts : Int) (rng : Rng) : HistoricalDataStore :=
  if pulses.isEmpty then generate_synthetic_data store date_str target_ts rng
  else
    let final := pulses.foldl (processPulse target_ts)
      { events := [], processed := store.processed_pulse_ids, rng := rng }
    let store1 := { store with processed_pulse_ids := final.processed }
    if final.events.isEmpty then
      generate_synthetic_data store1 date_str target_ts final.rng
    else
      { store1 with
        events_by_date := aset store1.events_by_date date_str final.events }

/-- `HistoricalDataStore.get_events_for_date(date_str)`:
`self.events_by_date.get(date_str, [])`. -/
def get_events_for_date (store : HistoricalDataStore) (date_str : String) :
    List AttackEvent :=
  (alookup store.events_by_date date_str).getD []

/-- `HistoricalDataStore.get_summary_for_date(date_str)`. -/
def get_summary_for_date (store : HistoricalDataStore) (date_str : String) :
    Option HistoricalSummary :=
  let events := get_events_for_date store date_str
  if events.isEmpty then none
  else
    let events_by_country :=
      events.foldl (fun d e => bumpKey d e.source.country) []
    let events_by_type := events.foldl (fun d e => bumpKey d e.type) []
    let total_severity : Int := events.foldl (fun s e => s + e.severity) 0
    some { date := date_str,
           total_events := events.length,
           events_by_country := events_by_country,
           events_by_type := events_by_type,
           avg_severity :=
             if events.isEmpty then 0
             else (total_severity : ℚ) / (events.length : ℚ) }

/-- The per-country accumulator of `get_country_stats`:
`{"count": 0, "severity_sum": 0, "types": defaultdict(int)}`. -/
structure CData where
  count : Nat
  severity_sum : Int
  types : List (String × Nat)
deriving DecidableEq, Repr

/-- One iteration of the aggregation loop of `get_country_stats`: bump the
(first-occurrence-ordered) entry of the event's source country. -/
def bumpCountry (m : List (String × CData)) (e : AttackEvent) :
    List (String × CData) :=
  match m with
  | [] => [(e.source.country,
            { count := 1, severity_sum := e.severity,
              types := bumpKey [] e.type })]
  | (k, d) :: rest =>
    if k = e.source.country then
      (k, { count := d.count + 1, severity_sum := d.severity_sum + e.severity,
            types := bumpKey d.types e.type }) :: rest
    else (k, d) :: bumpCountry rest e

/-- The `CountryStats(...)` constructor call of the stats loop in
`get_country_stats`. -/
def statOf (kd : String × CData) : CountryStats :=
  { country := kd.1, total_events := kd.2.count,
    avg_severity := (kd.2.severity_sum : ℚ) / (kd.2.count : ℚ),
    attack_types := kd.2.types }

/-- `HistoricalDataStore.get_country_stats(date_str)`: aggregate per source
country, then `sorted(stats, key=lambda x: x.total_events, reverse=True)`
(a stable descending sort, embedded as a stable merge sort under the
relation `b.total_events ≤ a.total_events`). -/
def get_country_stats (store : HistoricalDataStore) (date_str : String) :
    List CountryStats :=
  let events := get_events_for_date store date_str
  if events.isEmpty then []
  else
    let country_data := events.foldl bumpCountry []
    let stats := country_data.map statOf
    stats.mergeSort (fun a b => decide (b.total_events ≤ a.total_events))

/-! ## Spec-side definitions (for refinement claims)

These definitions transcribe the *spec's* (or the amended claim's) wording
of the severity heuristics, to be compared with the source-derived
functions above. -/

/-- The claimed mapping of C5: `combined = confidence/100 +
min(reportCount/100, 0.5)` computed *exactly*, mapped by threshold —
combined≥1.2→5, ≥0.9→4, ≥0.6→3, ≥0.3→2, else→1. -/
def blacklistSeveritySpec (confidence reportCount : Int) : Int :=
  let combined : ℚ := (confidence : ℚ) / 100 + min ((reportCount : ℚ) / 100) (5/10)
  if combined ≥ 12/10 then 5
  else if combined ≥ 9/10 then 4
  else if combined ≥ 6/10 then 3
  else if combined ≥ 3/10 then 2
  else 1

/-- Amended wording of C5: the same threshold mapping applied to the
double-precision evaluation of `combined = c/100 + min(r/100, 0.5)`
(thresholds being the doubles the source's decimal literals denote), with
no result when an int-to-float conversion overflows. -/
def blacklistSeverityFloatSpec (confidence reportCount : Int) : Option Int :=
  match floatOfInt confidence, pyIntTrueDiv reportCount 100 with
  | some c, some r =>
    let combined := fadd (fdiv c (floatLit 100 1)) (fmin r (floatLit 1 2))
    some (if fle (floatLit 12 10) combined then 5
          else if fle (floatLit 9 10) combined then 4
          else if fle (floatLit 6 10) combined then 3
          else if fle (floatLit 3 10) combined then 2
          else 1)
  | _, _ => none

/-- Spec wording: TLP base score (red=5, amber=4, green=3, white=2,
unknown=2), +1 if indicator count >100, +0.5 if indicator count in
(50,100], a further +1 if any tag case-insensitively matches the fixed
critical-tag set, each boost capped at 5, the result truncated to an
integer and floored at 1. -/
def pulseSeveritySpec (pulse : Pulse) : Int :=
  let base : ℚ := tlpScores (pyLower (pulse.tlp.getD "white"))
  let n := pulse.indicators.length
  let afterCount : ℚ :=
    if n > 100 then min 5 (base + 1)
    else if 50 < n ∧ n ≤ 100 then min 5 (base + 1/2)
    else base
  let afterTags : ℚ :=
    if pulse.tags.any (fun t => criticalTags.contains (pyLower t)) then
      min 5 (afterCount + 1)
    else afterCount
  max 1 (min 5 (pyTrunc afterTags))

/-! ## Concrete inputs used by counterexamples and witnesses -/

/-- A degenerate RNG supplying constant draws. -/
def zeroRng : Rng :=
  { nats := fun _ => 0, rats := fun _ => 0, ids := fun _ => "", pos := 0 }

def emptyStore : HistoricalDataStore :=
  { events_by_date := [], processed_pulse_ids := [] }

/-- TLP white, 10 indicators, no critical tags (spec boundary case). -/
def whitePulse : Pulse :=
  { id := some "w", tlp := some "white", created := none, tags := [],
    indicators := List.replicate 10 ⟨some "IPv4"⟩ }

/-- TLP red, 150 indicators, one critical tag (spec boundary case). -/
def redPulse : Pulse :=
  { id := some "r", tlp := some "red", created := none, tags := ["APT"],
    indicators := List.replicate 150 ⟨some "IPv4"⟩ }

/-- A location reused as both source and target of an event. -/
def usLocation : Location := { country := "US", lat := 37, lng := -95 }

/-- A pulse cached under id `"p1"` at instant 0 (for the TTL analysis). -/
def stalePulse : Pulse :=
  { id := some "p1", tlp := some "white", created := none, tags := [],
    indicators := [] }

def staleCache : OTXCacheState :=
  { pulse_cache := [("p1", stalePulse)], cache_timestamps := [("p1", 0)] }

/-! ## The event list a fetch stores (factored from `fetch_and_aggregate`) -/

/-- The event list that `fetch_and_aggregate` ends up storing under
`date_str`: the loop's events when any were produced, else the synthetic
list (every control path of the source ends in
`self.events_by_date[date_str] = events`). -/
def storedEvents (store : HistoricalDataStore) (pulses : List Pulse)
    (target_ts : Int) (rng : Rng) : List AttackEvent :=
  if pulses.isEmpty then (generate_synthetic_events target_ts rng).1
  else
    let final := pulses.foldl (processPulse target_ts)
      { events := [], processed := store.processed_pulse_ids, rng := rng }
    if final.events.isEmpty then
      (generate_synthetic_events target_ts final.rng).1
    else final.events

/-- A pulse with one IPv4 indicator and an unprocessed id (witness data). -/
def okPulse : Pulse :=
  { id := some "p-ok", tlp := some "green", created := some 1700000000000,
    tags := ["botnet"], indicators := [⟨some "IPv4"⟩] }

/-- A pulse with no IP-typed indicators (counterexample data). -/
def noIPPulse : Pulse :=
  { id := some "p-noip", tlp := some "white", created := none,
    tags := ["ddos"], indicators := [⟨some "domain"⟩, ⟨none⟩] }

/-! ## Demo store used by the aggregation witnesses -/

def demoEvent1 : AttackEvent :=
  { id := "ev1", source := { country := "US", lat := 37, lng := -95 },
    target := { country := "CN", lat := 35, lng := 104 },
    type := "ddos", severity := 2, confidence := 1, timestamp := 0 }

def demoEvent2 : AttackEvent :=
  { id := "ev2", source := { country := "US", lat := 37, lng := -95 },
    target := { country := "CN", lat := 35, lng := 104 },
    type := "bot", severity := 4, confidence := 1, timestamp := 0 }

def demoStore : HistoricalDataStore :=
  { events_by_date := [("2024-03-01", [demoEvent1, demoEvent2])],
    processed_pulse_ids := [] }

/-! ## Characterizing the per-country aggregation fold -/

/-- The in-place update `bumpCountry` applies to an existing country entry. -/
def bumpCData (d : CData) (e : AttackEvent) : CData :=
  { count := d.count + 1, severity_sum := d.severity_sum + e.severity,
    types := bumpKey d.types e.type }

/-- Updating a country's accumulator, starting it when absent. -/
def bumpAt (o : Option CData) (e : AttackEvent) : CData :=
  match o with
  | none => { count := 1, severity_sum := e.severity,
              types := bumpKey [] e.type }
  | some d => bumpCData d e

/-- Accumulate a run of events into one country's accumulator. -/
def accCData (d : CData) (l : List AttackEvent) : CData := l.foldl bumpCData d

/-- Accumulate a run of events into one country's optional accumulator. -/
def accCData? (o : Option CData) (l : List AttackEvent) : Option CData :=
  l.foldl (fun o e => some (bumpAt o e)) o

/-- The accumulator `get_country_stats` builds for country "US" of the demo
store. -/
def demoCData : CData :=
  { count := 2, severity_sum := 6, types := [("ddos", 1), ("bot", 1)] }

/-! ## Association-list and counting lemmas -/

theorem alookup_aset_self {α : Type} (m : List (String × α)) (k : String)
    (v : α) : alookup (aset m k v) k = some v := by
  induction m with
  | nil => simp [aset, alookup]
  | cons hd tl ih =>
    obtain ⟨k', v'⟩ := hd
    by_cases h : k' = k
    · simp [aset, h, alookup]
    · simp [aset, h, alookup, ih]

theorem alookup_aset_ne {α : Type} (m : List (String × α)) (k k' : String)
    (v : α) (hne : k' ≠ k) : alookup (aset m k v) k' = alookup m k' := by
  have hkk : k ≠ k' := Ne.symm hne
  induction m with
  | nil => simp [aset, alookup, hkk]
  | cons hd tl ih =>
    obtain ⟨k₀, v₀⟩ := hd
    by_cases h : k₀ = k
    · subst h
      simp [aset, alookup, hkk]
    · simp only [aset, if_neg h, alookup]
      by_cases h' : k₀ = k'
      · simp [h']
      · simp [h', ih]

/-- `(k, v) ∈ m` together with left-to-right distinct keys pins down the
lookup result. -/
theorem alookup_eq_of_mem_of_nodup {α : Type} (m : List (String × α))
    (k : String) (v : α) (hmem : (k, v) ∈ m)
    (hnd : (m.map Prod.fst).Nodup) : alookup m k = some v := by
  induction m with
  | nil => cases hmem
  | cons hd tl ih =>
    obtain ⟨k₀, v₀⟩ := hd
    simp only [List.map_cons, List.nodup_cons] at hnd
    rcases List.mem_cons.mp hmem with h | h
    · obtain ⟨hk, hv⟩ := Prod.mk.injEq .. ▸ h
      simp [alookup, hk.symm, hv]
    · have hk : k₀ ≠ k := by
        intro he
        exact hnd.1 (he ▸ (List.mem_map.mpr ⟨(k, v), h, rfl⟩))
      simp [alookup, hk, ih h hnd.2]

theorem sumVals_bumpKey (m : List (String × Nat)) (k : String) :
    sumVals (bumpKey m k) = sumVals m + 1 := by
  induction m with
  | nil => simp [bumpKey, sumVals]
  | cons hd tl ih =>
    obtain ⟨k', v⟩ := hd
    by_cases h : k' = k
    · simp [bumpKey, h, sumVals]
      omega
    · simp only [bumpKey, if_neg h, sumVals, List.map_cons, List.sum_cons]
      simp only [sumVals] at ih
      omega

/-! ## Helper lemmas -/

theorem pyTrunc_intCast (n : ℤ) : pyTrunc (n : ℚ) = n := by
  simp [pyTrunc, Rat.num_intCast, Rat.den_intCast]

/-! ## Claim C2 -/

/-- C2 counterexample: the claim says construction is rejected whenever the
source and target countries are equal, or severity is outside [1,5], or
confidence is outside [0,1].  Constructing an event violating all three at
once (equal countries "US"/"US", severity 7, confidence 3/2) nevertheless
produces an event. -/
theorem C2_counterexample_construction_accepts_invalid :
    usLocation.country = usLocation.country ∧ (7 : Int) > 5 ∧
    (3/2 : ℚ) > 1 ∧
    AttackEvent.construct "e1" usLocation usLocation "ddos" 7 (3/2) 0 =
      some { id := "e1", source := usLocation, target := usLocation,
             type := "ddos", severity := 7, confidence := 3/2,
             timestamp := 0 } := by
  refine ⟨rfl, by norm_num, by norm_num, rfl⟩

/-- C2 (amended): the `AttackEvent` model declares no validators, so
construction never fails — every type-correct field assignment (equal
countries, out-of-range severity or confidence included) produces an
event with exactly the assigned fields. -/
theorem C2_construction_never_rejects :
    ∀ (id : String) (source target : Location) (type : String)
      (severity : Int) (confidence : ℚ) (timestamp : Int),
      AttackEvent.construct id source target type severity confidence
        timestamp =
        some { id := id, source := source, target := target, type := type,
               severity := severity, confidence := confidence,
               timestamp := timestamp } :=
  fun _ _ _ _ _ _ _ => rfl

/-! ## Claim C4 -/

/-- C4 (code bug): the claim says a lookup at least `OTX_CACHE_TTL` seconds
after caching treats the entry as absent.  For an entry cached at instant 0
and looked up at instant 86400 (one full day, far beyond the 3600-second
TTL), `_is_cache_valid` returns `true` — `timedelta.seconds` is the
seconds-within-day component, so the check compares `elapsed % 86400`
against the TTL — and `get_pulse_by_id` serves the stale cached pulse. -/
theorem C4_ttl_expiry_violated_after_one_day :
    86400 ≥ OTX_CACHE_TTL ∧
    OTXClient.is_cache_valid staleCache "p1" 86400 = true ∧
    OTXClient.get_pulse_by_id_cached staleCache "p1" 86400 =
      some stalePulse := by
  refine ⟨by norm_num [OTX_CACHE_TTL], by decide, by decide⟩

/-! ## Claim C5 -/

/-- C5 counterexample: the claim says the function returns exactly the
threshold mapping of the *exact* `combined = c/100 + min(r/100, 0.5)`.
At the in-domain input (60, 30) the exact mapping demands 4 (combined is
exactly 9/10), but the code evaluates `0.6 + 0.3` in doubles, lands just
below `0.9`, and returns 3. -/
theorem C5_counterexample_float_rounding :
    calculate_severity 60 30 = some 3 ∧
    blacklistSeveritySpec 60 30 = 4 :=
  ⟨by decide, by norm_num [blacklistSeveritySpec]⟩

/-- C5 (amended): the blacklist severity function returns the threshold
mapping applied to the *double-precision* evaluation of
`combined = c/100 + min(r/100, 0.5)` (none on int-to-float overflow).
This agrees with the exact mapping at the claimed boundary cases —
(100, 100) ↦ 5, (30, 0) ↦ 2, (0, 0) ↦ 1 — but not everywhere: float
rounding can cross a threshold, e.g. (60, 30) ↦ 3 where the exact mapping
gives 4. -/
theorem C5_blacklist_severity_float_mapping :
    (∀ c r : Int, calculate_severity c r = blacklistSeverityFloatSpec c r) ∧
    calculate_severity 100 100 = some 5 ∧
    calculate_severity 30 0 = some 2 ∧
    calculate_severity 0 0 = some 1 ∧
    calculate_severity 60 30 = some 3 := by
  refine ⟨fun c r => ?_, by decide, by decide, by decide, by decide⟩
  unfold calculate_severity blacklistSeverityFloatSpec
  cases floatOfInt c <;> cases pyIntTrueDiv r 100 <;> rfl

/-! ## Claim C6 -/

/-- C6: for every pulse, the pulse severity function returns exactly the
spec's TLP-base-plus-capped-boosts value, and the two boundary cases come
out as stated: TLP white with 10 indicators and no critical tags ↦ 2,
TLP red with 150 indicators and one critical tag ↦ 5. -/
theorem C6_pulse_severity_matches_spec :
    (∀ p : Pulse, calculate_severity_from_pulse p = pulseSeveritySpec p) ∧
    calculate_severity_from_pulse whitePulse = 2 ∧
    calculate_severity_from_pulse redPulse = 5 := by
  have hlw : pyLower "white" = "white" := by decide
  have hw : pulseBaseSeverity whitePulse = 2 := by
    simp [pulseBaseSeverity, whitePulse, hlw, tlpScores]
  have hlr : pyLower "red" = "red" := by decide
  have hapt : criticalTags.contains (pyLower "APT") = true := by decide
  have hr : pulseBaseSeverity redPulse = 5 := by
    simp [pulseBaseSeverity, redPulse, hlr, hapt, tlpScores]
  refine ⟨fun p => ?_, ?_, ?_⟩
  case refine_2 =>
    unfold calculate_severity_from_pulse
    rw [hw, show (2 : ℚ) = ((2 : ℤ) : ℚ) by norm_num, pyTrunc_intCast]
    norm_num
  case refine_3 =>
    unfold calculate_severity_from_pulse
    rw [hr, show (5 : ℚ) = ((5 : ℤ) : ℚ) by norm_num, pyTrunc_intCast]
    norm_num
  unfold calculate_severity_from_pulse pulseBaseSeverity pulseSeveritySpec
  by_cases h1 : p.indicators.length > 100
  · simp [h1]
  · by_cases h2 : p.indicators.length > 50
    · have h3 : p.indicators.length ≤ 100 := by omega
      simp [h1, h2, h3]
    · simp [h1, h2]

/-! ## Claim C10 -/

/-- C10 counterexample: the claim says the blacklist severity function is
total and returns an integer in [1,5] for *every* pair of integers.  At
(10^311, 0) the source raises `OverflowError` (the int-to-float conversion
in `c / 100.0` overflows) and returns no integer at all. -/
theorem C10_counterexample_overflow :
    calculate_severity (10 ^ 311) 0 = none := by decide

/-- C10 (amended): the pulse severity function is total and returns an
integer in [1,5] for every pulse (unrecognized TLP, missing fields, empty
tag or indicator lists included); the blacklist severity function returns
an integer in [1,5] *whenever it returns at all* — for inputs so large
that an int-to-float conversion overflows (magnitude at least
`2^1024 - 2^970`, about 1.8·10^308) it raises `OverflowError` instead. -/
theorem C10_severity_bounded_when_defined :
    (∀ c r v : Int, calculate_severity c r = some v →
      1 ≤ v ∧ v ≤ 5) ∧
    (∀ p : Pulse,
      1 ≤ calculate_severity_from_pulse p ∧
        calculate_severity_from_pulse p ≤ 5) := by
  constructor
  · intro c r v h
    unfold calculate_severity at h
    cases hf : floatOfInt c with
    | none => simp [hf] at h
    | some cF =>
      simp only [hf] at h
      cases hr : pyIntTrueDiv r 100 with
      | none => simp [hr] at h
      | some rF =>
        simp only [hr, Option.some.injEq] at h
        split_ifs at h <;> omega
  · intro p
    unfold calculate_severity_from_pulse
    exact ⟨le_max_left _ _,
      max_le (by norm_num) (min_le_left _ _)⟩

theorem C10_severity_bounded_when_defined_witness :
    calculate_severity 0 0 = some 1 ∧ ((1 : Int) ≤ 1 ∧ (1 : Int) ≤ 5) :=
  ⟨by decide, C10_severity_bounded_when_defined.1 0 0 1 (by decide)⟩

/-! ## Fetch structure lemmas -/

theorem fetch_events_by_date (store : HistoricalDataStore)
    (pulses : List Pulse) (date_str : String) (target_ts : Int) (rng : Rng) :
    (fetch_and_aggregate store pulses date_str target_ts rng).events_by_date =
      aset store.events_by_date date_str
        (storedEvents store pulses target_ts rng) := by
  simp only [fetch_and_aggregate, storedEvents, generate_synthetic_data]
  split_ifs <;> rfl

theorem fetch_processed (store : HistoricalDataStore) (pulses : List Pulse)
    (date_str : String) (target_ts : Int) (rng : Rng) :
    (fetch_and_aggregate store pulses date_str target_ts rng).processed_pulse_ids =
      if pulses.isEmpty then store.processed_pulse_ids
      else (pulses.foldl (processPulse target_ts)
        { events := [], processed := store.processed_pulse_ids,
          rng := rng }).processed := by
  simp only [fetch_and_aggregate, generate_synthetic_data]
  split_ifs <;> rfl

theorem length_foldl_snocEvent {γ : Type} (mk : Rng → AttackEvent × Rng) :
    ∀ (l : List γ) (acc : List AttackEvent × Rng),
      ((l.foldl (fun a _ => snocEvent mk a) acc).1).length =
        acc.1.length + l.length := by
  intro l
  induction l with
  | nil => intro acc; simp
  | cons hd tl ih =>
    intro acc
    rw [List.foldl_cons, ih]
    simp only [snocEvent, List.length_append, List.length_cons,
      List.length_nil]
    omega

theorem generate_synthetic_events_length (ts : Int) (rng : Rng) :
    30 ≤ (generate_synthetic_events ts rng).1.length := by
  simp only [generate_synthetic_events, length_foldl_snocEvent,
    List.length_nil, List.length_range, randint]
  omega

theorem storedEvents_ne_nil (store : HistoricalDataStore)
    (pulses : List Pulse) (target_ts : Int) (rng : Rng) :
    0 < (storedEvents store pulses target_ts rng).length := by
  simp only [storedEvents]
  split_ifs with h1 h2
  · have := generate_synthetic_events_length target_ts rng
    omega
  · have := generate_synthetic_events_length target_ts
      (pulses.foldl (processPulse target_ts)
        { events := [], processed := store.processed_pulse_ids,
          rng := rng }).rng
    omega
  · have := List.isEmpty_eq_false.mp (by simpa using h2)
    exact List.length_pos.mpr this

/-! ## Claim C1 -/

/-- C1: after every `fetch_and_aggregate(D)` — whatever the provider
returned: records, records that all get skipped, or nothing — the store
holds a present, non-empty event list for `D`, so `get_events_for_date(D)`
is non-empty. -/
theorem C1_fetch_leaves_nonempty_entry :
    ∀ (store : HistoricalDataStore) (pulses : List Pulse) (date_str : String)
      (target_ts : Int) (rng : Rng),
      (alookup (fetch_and_aggregate store pulses date_str target_ts
          rng).events_by_date date_str).isSome = true ∧
      0 < (get_events_for_date
        (fetch_and_aggregate store pulses date_str target_ts rng)
        date_str).length := by
  intro store pulses date_str target_ts rng
  have h := fetch_events_by_date store pulses date_str target_ts rng
  have hself := alookup_aset_self store.events_by_date date_str
    (storedEvents store pulses target_ts rng)
  constructor
  · rw [h, hself]
    rfl
  · rw [get_events_for_date, h, hself]
    exact storedEvents_ne_nil store pulses target_ts rng

/-! ## Dedup-set lemmas for the pulse loop -/

theorem mem_processed_processPulse (t : Int) (st : FetchLoopState)
    (p : Pulse) (x : Option String) (hx : x ∈ st.processed) :
    x ∈ (processPulse t st p).processed := by
  simp only [processPulse]
  split_ifs <;> simp [hx]

theorem mem_self_processPulse (t : Int) (st : FetchLoopState) (p : Pulse)
    (hip : (p.indicators.filter isIPIndicator).isEmpty = false) :
    p.id ∈ (processPulse t st p).processed := by
  simp only [processPulse]
  split_ifs with h1 h2
  · exact h1
  · exact absurd h2 (by simp [hip])
  · simp

theorem mem_processed_foldl (t : Int) :
    ∀ (l : List Pulse) (st : FetchLoopState) (x : Option String),
      x ∈ st.processed → x ∈ (l.foldl (processPulse t) st).processed := by
  intro l
  induction l with
  | nil => intro st x hx; exact hx
  | cons hd tl ih =>
    intro st x hx
    exact ih _ _ (mem_processed_processPulse t st hd x hx)

theorem mem_processed_of_mem_foldl (t : Int) :
    ∀ (l : List Pulse) (st : FetchLoopState) (p : Pulse), p ∈ l →
      (p.indicators.filter isIPIndicator).isEmpty = false →
      p.id ∈ (l.foldl (processPulse t) st).processed := by
  intro l
  induction l with
  | nil => intro st p hp; cases hp
  | cons hd tl ih =>
    intro st p hp hip
    rcases List.mem_cons.mp hp with h | h
    · subst h
      exact mem_processed_foldl t tl _ _ (mem_self_processPulse t st p hip)
    · exact ih _ p h hip

/-! ## Claim C3 -/

/-- C3 counterexample: the claim says every non-skipped pulse has its id
added to the dedup set even when it produced zero events.  A fresh pulse
with no IP-typed indicators is not skipped by the dedup check, produces
zero events — and its id is *not* in the dedup set after the fetch: the
source `continue`s past the `_processed_pulse_ids.add` line. -/
theorem C3_counterexample_noip_pulse_not_marked :
    noIPPulse.id ∉ emptyStore.processed_pulse_ids ∧
    (noIPPulse.indicators.filter isIPIndicator).isEmpty = true ∧
    noIPPulse.id ∉
      (fetch_and_aggregate emptyStore [noIPPulse] "2024-01-01" 0
        zeroRng).processed_pulse_ids := by
  refine ⟨by decide, by decide, ?_⟩
  rw [fetch_processed]
  decide

/-- C3 (amended): every pulse of the batch that has at least one IP-typed
indicator ends up in the permanent dedup set after `fetch_and_aggregate`
(whether it was processed now or already before); a non-skipped pulse with
no IP-typed indicators is passed over without being marked processed. -/
theorem C3_ip_pulses_always_marked_processed :
    ∀ (store : HistoricalDataStore) (pulses : List Pulse) (date_str : String)
      (target_ts : Int) (rng : Rng) (p : Pulse),
      p ∈ pulses →
      (p.indicators.filter isIPIndicator).isEmpty = false →
      p.id ∈ (fetch_and_aggregate store pulses date_str target_ts
        rng).processed_pulse_ids := by
  intro store pulses date_str target_ts rng p hp hip
  rw [fetch_processed]
  have hne : pulses.isEmpty = false := by
    cases pulses
    · cases hp
    · rfl
  simp only [hne, Bool.false_eq_true, if_false]
  exact mem_processed_of_mem_foldl target_ts pulses _ p hp hip

theorem C3_ip_pulses_always_marked_processed_witness :
    okPulse.id ∈ (fetch_and_aggregate emptyStore [okPulse] "2024-01-01" 0
      zeroRng).processed_pulse_ids :=
  C3_ip_pulses_always_marked_processed emptyStore [okPulse] "2024-01-01" 0
    zeroRng okPulse (by simp) (by decide)

/-! ## Claim C9 -/

/-- C9: a second `fetch_and_aggregate` for the same date leaves the store's
entry for that date exactly equal to the second call's computed event list
(wholesale replacement, never a merge with the first call's list), and
leaves the entries of all other dates unchanged. -/
theorem C9_second_fetch_replaces_wholesale :
    ∀ (store : HistoricalDataStore) (pulses1 pulses2 : List Pulse)
      (date_str : String) (ts1 ts2 : Int) (rng1 rng2 : Rng),
      alookup (fetch_and_aggregate
          (fetch_and_aggregate store pulses1 date_str ts1 rng1)
          pulses2 date_str ts2 rng2).events_by_date date_str =
        some (storedEvents
          (fetch_and_aggregate store pulses1 date_str ts1 rng1)
          pulses2 ts2 rng2) ∧
      ∀ d', d' ≠ date_str →
        alookup (fetch_and_aggregate
            (fetch_and_aggregate store pulses1 date_str ts1 rng1)
            pulses2 date_str ts2 rng2).events_by_date d' =
          alookup (fetch_and_aggregate store pulses1 date_str ts1
            rng1).events_by_date d' := by
  intro store pulses1 pulses2 date_str ts1 ts2 rng1 rng2
  rw [fetch_events_by_date]
  exact ⟨alookup_aset_self _ _ _, fun d' hd => alookup_aset_ne _ _ _ _ hd⟩

theorem C9_second_fetch_replaces_wholesale_witness :
    alookup (fetch_and_aggregate
        (fetch_and_aggregate emptyStore [] "2024-01-01" 0 zeroRng)
        [] "2024-01-01" 0 zeroRng).events_by_date "2024-01-02" =
      alookup (fetch_and_aggregate emptyStore [] "2024-01-01" 0
        zeroRng).events_by_date "2024-01-02" :=
  (C9_second_fetch_replaces_wholesale emptyStore [] [] "2024-01-01" 0 0
    zeroRng zeroRng).2 "2024-01-02" (by decide)

/-! ## Aggregation fold lemmas -/

theorem sumVals_foldl_bump (f : AttackEvent → String) :
    ∀ (l : List AttackEvent) (init : List (String × Nat)),
      sumVals (l.foldl (fun d e => bumpKey d (f e)) init) =
        sumVals init + l.length := by
  intro l
  induction l with
  | nil => intro init; simp
  | cons hd tl ih =>
    intro init
    rw [List.foldl_cons, ih, sumVals_bumpKey]
    simp only [List.length_cons]
    omega

theorem foldl_severity_cast :
    ∀ (l : List AttackEvent) (a : Int),
      ((l.foldl (fun s e => s + e.severity) a : Int) : ℚ) =
        (a : ℚ) + (l.map (fun e => (e.severity : ℚ))).sum := by
  intro l
  induction l with
  | nil => intro a; simp
  | cons hd tl ih =>
    intro a
    rw [List.foldl_cons, ih]
    simp only [List.map_cons, List.sum_cons]
    push_cast
    ring

/-! ## Claim C7 -/

/-- C7: for a date with a (non-empty) stored entry, the summary's
`total_events` is the length of the stored event list, the values of
`events_by_country` and of `events_by_type` each sum to `total_events`, and
`avg_severity` is the arithmetic mean of the stored severities; for a date
with no entry the summary is absent. -/
theorem C7_summary_consistency :
    ∀ (store : HistoricalDataStore) (date_str : String),
      (alookup store.events_by_date date_str = none →
        get_summary_for_date store date_str = none) ∧
      (∀ events, alookup store.events_by_date date_str = some events →
        events ≠ [] →
        ∃ s, get_summary_for_date store date_str = some s ∧
          s.total_events = events.length ∧
          sumVals s.events_by_country = s.total_events ∧
          sumVals s.events_by_type = s.total_events ∧
          s.avg_severity =
            (events.map (fun e => (e.severity : ℚ))).sum /
              (events.length : ℚ)) := by
  intro store date_str
  constructor
  · intro h
    simp [get_summary_for_date, get_events_for_date, h]
  · intro events h hne
    have hev : get_events_for_date store date_str = events := by
      simp [get_events_for_date, h]
    have hie : events.isEmpty = false := by
      simp [hne]
    have hc := sumVals_foldl_bump (fun e => e.source.country) events []
    have ht := sumVals_foldl_bump (fun e => e.type) events []
    have hs := foldl_severity_cast events 0
    refine ⟨{ date := date_str,
              total_events := events.length,
              events_by_country :=
                events.foldl (fun d e => bumpKey d e.source.country) [],
              events_by_type :=
                events.foldl (fun d e => bumpKey d e.type) [],
              avg_severity :=
                if events.isEmpty then 0
                else ((events.foldl (fun s e => s + e.severity) 0 :
                  Int) : ℚ) / (events.length : ℚ) },
      ?_, rfl, ?_, ?_, ?_⟩
    · simp [get_summary_for_date, hev, hie]
    · simpa [sumVals] using hc
    · simpa [sumVals] using ht
    · simp only [hie, Bool.false_eq_true, if_false]
      rw [hs]
      ring_nf

theorem C7_summary_consistency_witness :
    (∃ s, get_summary_for_date demoStore "2024-03-01" = some s ∧
      s.total_events = [demoEvent1, demoEvent2].length ∧
      sumVals s.events_by_country = s.total_events ∧
      sumVals s.events_by_type = s.total_events ∧
      s.avg_severity =
        ([demoEvent1, demoEvent2].map (fun e => (e.severity : ℚ))).sum /
          (([demoEvent1, demoEvent2] : List AttackEvent).length : ℚ)) ∧
    get_summary_for_date demoStore "2024-01-15" = none :=
  ⟨(C7_summary_consistency demoStore "2024-03-01").2 [demoEvent1, demoEvent2]
      rfl (by simp),
   (C7_summary_consistency demoStore "2024-01-15").1 (by decide)⟩

/-! ## Per-country aggregation fold lemmas -/

theorem accCData?_some :
    ∀ (l : List AttackEvent) (d : CData),
      accCData? (some d) l = some (accCData d l) := by
  intro l
  induction l with
  | nil => intro d; rfl
  | cons e rest ih => intro d; exact ih (bumpCData d e)

theorem accCData_count :
    ∀ (l : List AttackEvent) (d : CData),
      (accCData d l).count = d.count + l.length := by
  intro l
  induction l with
  | nil => intro d; simp [accCData]
  | cons e rest ih =>
    intro d
    have := ih (bumpCData d e)
    simp only [accCData, List.foldl_cons] at this ⊢
    rw [this]
    simp [bumpCData]
    omega

theorem accCData_sev :
    ∀ (l : List AttackEvent) (d : CData),
      (accCData d l).severity_sum =
        d.severity_sum + (l.map (fun e => e.severity)).sum := by
  intro l
  induction l with
  | nil => intro d; simp [accCData]
  | cons e rest ih =>
    intro d
    have := ih (bumpCData d e)
    simp only [accCData, List.foldl_cons] at this ⊢
    rw [this]
    simp only [bumpCData, List.map_cons, List.sum_cons]
    omega

theorem accCData_types :
    ∀ (l : List AttackEvent) (d : CData),
      (accCData d l).types =
        l.foldl (fun t e => bumpKey t e.type) d.types := by
  intro l
  induction l with
  | nil => intro d; simp [accCData]
  | cons e rest ih =>
    intro d
    have := ih (bumpCData d e)
    simp only [accCData, List.foldl_cons] at this ⊢
    rw [this]
    rfl

theorem map_severity_cast :
    ∀ (l : List AttackEvent),
      (((l.map (fun e => e.severity)).sum : Int) : ℚ) =
        (l.map (fun e => (e.severity : ℚ))).sum := by
  intro l
  induction l with
  | nil => simp
  | cons e rest ih =>
    simp only [List.map_cons, List.sum_cons, Int.cast_add, ih]

theorem alookup_bumpCountry (m : List (String × CData)) (e : AttackEvent)
    (k : String) :
    alookup (bumpCountry m e) k =
      if e.source.country = k then some (bumpAt (alookup m k) e)
      else alookup m k := by
  induction m with
  | nil =>
    by_cases h : e.source.country = k
    · simp [bumpCountry, alookup, h, bumpAt]
    · have h' : ¬(e.source.country = k) := h
      simp [bumpCountry, alookup, h', Ne.symm h']
  | cons hd tl ih =>
    obtain ⟨k₀, d₀⟩ := hd
    by_cases h₀ : k₀ = e.source.country
    · by_cases h : k₀ = k
      · have he : e.source.country = k := by rw [← h₀, h]
        simp [bumpCountry, if_pos h₀, alookup, h, he, bumpAt, bumpCData]
      · have he : ¬(e.source.country = k) := by rw [← h₀]; exact h
        simp [bumpCountry, if_pos h₀, alookup, h, he]
    · by_cases h : k₀ = k
      · have he : ¬(e.source.country = k) :=
          fun hk => h₀ (h.trans hk.symm)
        simp [bumpCountry, if_neg h₀, alookup, h, he, Ne.symm he]
      · simp [bumpCountry, if_neg h₀, alookup, h, ih]

theorem alookup_foldl_bumpCountry :
    ∀ (l : List AttackEvent) (m : List (String × CData)) (k : String),
      alookup (l.foldl bumpCountry m) k =
        accCData? (alookup m k)
          (l.filter (fun e => e.source.country == k)) := by
  intro l
  induction l with
  | nil => intro m k; rfl
  | cons hd tl ih =>
    intro m k
    rw [List.foldl_cons, ih, alookup_bumpCountry]
    by_cases h : hd.source.country = k
    · simp only [if_pos h, List.filter_cons, h]
      simp [accCData?]
    · simp only [if_neg h, List.filter_cons]
      have : (hd.source.country == k) = false := by
        simp [h]
      simp [this]

theorem keys_bumpCountry (m : List (String × CData)) (e : AttackEvent) :
    (bumpCountry m e).map Prod.fst =
      if e.source.country ∈ m.map Prod.fst then m.map Prod.fst
      else m.map Prod.fst ++ [e.source.country] := by
  induction m with
  | nil => simp [bumpCountry]
  | cons hd tl ih =>
    obtain ⟨k₀, d₀⟩ := hd
    by_cases h : k₀ = e.source.country
    · simp [bumpCountry, if_pos h, h.symm]
    · have h' : ¬(e.source.country = k₀) := fun hk => h hk.symm
      simp only [bumpCountry, if_neg h, List.map_cons, ih]
      by_cases hm : e.source.country ∈ tl.map Prod.fst
      · simp [hm, h']
      · simp [hm, h']

theorem nodup_keys_bumpCountry (m : List (String × CData)) (e : AttackEvent)
    (h : (m.map Prod.fst).Nodup) :
    ((bumpCountry m e).map Prod.fst).Nodup := by
  rw [keys_bumpCountry]
  split_ifs with hm
  · exact h
  · simp [List.nodup_append, h, hm]

theorem nodup_keys_foldl_bumpCountry :
    ∀ (l : List AttackEvent) (m : List (String × CData)),
      (m.map Prod.fst).Nodup →
      ((l.foldl bumpCountry m).map Prod.fst).Nodup := by
  intro l
  induction l with
  | nil => intro m h; exact h
  | cons hd tl ih =>
    intro m h
    exact ih _ (nodup_keys_bumpCountry m hd h)

theorem country_entry_props (events : List AttackEvent) (k : String)
    (d : CData) (hkd : (k, d) ∈ events.foldl bumpCountry []) :
    sumVals d.types = d.count ∧
    d.count = (events.filter (fun e => e.source.country == k)).length ∧
    ((d.severity_sum : Int) : ℚ) =
      ((events.filter (fun e => e.source.country == k)).map
        (fun e => (e.severity : ℚ))).sum := by
  have hnd := nodup_keys_foldl_bumpCountry events [] (by simp)
  have hlk := alookup_eq_of_mem_of_nodup _ k d hkd hnd
  rw [alookup_foldl_bumpCountry] at hlk
  cases hc : events.filter (fun e => e.source.country == k) with
  | nil =>
    rw [hc] at hlk
    simp [accCData?, alookup] at hlk
  | cons e rest =>
    rw [hc] at hlk
    have hstep : accCData? (alookup ([] : List (String × CData)) k)
        (e :: rest) = some (accCData (bumpAt none e) rest) := by
      show accCData? (some (bumpAt none e)) rest = _
      rw [accCData?_some]
    rw [hstep] at hlk
    have hd : accCData (bumpAt none e) rest = d := by
      simpa using hlk
    subst hd
    refine ⟨?_, ?_, ?_⟩
    · rw [accCData_types, accCData_count]
      have h1 : sumVals (rest.foldl (fun t e => bumpKey t e.type)
          (bumpKey [] e.type)) =
          sumVals (bumpKey [] e.type) + rest.length := by
        have hg := sumVals_foldl_bump (fun e => e.type) rest
          (bumpKey [] e.type)
        simpa using hg
      have h2 : sumVals (bumpKey [] e.type) = 1 := by
        simp [bumpKey, sumVals]
      show sumVals (rest.foldl (fun t e => bumpKey t e.type)
        (bumpAt none e).types) = (bumpAt none e).count + rest.length
      have h3 : (bumpAt none e).types = bumpKey [] e.type := rfl
      have h4 : (bumpAt none e).count = 1 := rfl
      rw [h3, h4, h1, h2]
    · rw [accCData_count]
      have h4 : (bumpAt none e).count = 1 := rfl
      rw [h4]
      simp [List.length_cons]
      omega
    · rw [accCData_sev]
      have h5 : (bumpAt none e).severity_sum = e.severity := rfl
      rw [h5, Int.cast_add, map_severity_cast]
      simp [List.map_cons, List.sum_cons]

/-! ## Claim C8 -/

/-- C8: `get_country_stats` returns a list sorted descending by
`total_events`; for every entry, the values of its `attack_types` map sum
to its `total_events`, its `total_events` is the number of stored events
whose source country is the entry's country, and its `avg_severity` is the
mean severity of those events. -/
theorem C8_country_stats_sorted_and_consistent :
    ∀ (store : HistoricalDataStore) (date_str : String),
      (get_country_stats store date_str).Pairwise
        (fun a b => b.total_events ≤ a.total_events) ∧
      ∀ s, s ∈ get_country_stats store date_str →
        sumVals s.attack_types = s.total_events ∧
        s.total_events = ((get_events_for_date store date_str).filter
          (fun e => e.source.country == s.country)).length ∧
        s.avg_severity = (((get_events_for_date store date_str).filter
            (fun e => e.source.country == s.country)).map
            (fun e => (e.severity : ℚ))).sum / (s.total_events : ℚ) := by
  intro store date_str
  cases hemp : (get_events_for_date store date_str).isEmpty with
  | true =>
    constructor
    · simp [get_country_stats, hemp]
    · intro s hs
      simp [get_country_stats, hemp] at hs
  | false =>
    have hstats : get_country_stats store date_str =
        (((get_events_for_date store date_str).foldl bumpCountry []).map
          statOf).mergeSort
          (fun a b => decide (b.total_events ≤ a.total_events)) := by
      simp [get_country_stats, hemp]
    constructor
    · rw [hstats]
      refine List.Pairwise.imp ?_ (List.sorted_mergeSort ?_ ?_ _)
      · intro a b h
        simpa using h
      · intro a b c hab hbc
        simp only [decide_eq_true_eq] at hab hbc ⊢
        omega
      · intro a b
        rcases Nat.le_total b.total_events a.total_events with h | h <;>
          simp [h]
    · intro s hs
      rw [hstats, List.mem_mergeSort] at hs
      obtain ⟨⟨k, d⟩, hkd, heq⟩ := List.mem_map.mp hs
      obtain ⟨h1, h2, h3⟩ := country_entry_props
        (get_events_for_date store date_str) k d hkd
      subst heq
      refine ⟨h1, h2, ?_⟩
      show (d.severity_sum : ℚ) / (d.count : ℚ) = _
      simp only [statOf]
      rw [← h3]

theorem C8_country_stats_sorted_and_consistent_witness :
    sumVals (statOf ("US", demoCData)).attack_types =
      (statOf ("US", demoCData)).total_events ∧
    (statOf ("US", demoCData)).total_events =
      ((get_events_for_date demoStore "2024-03-01").filter
        (fun e => e.source.country ==
          (statOf ("US", demoCData)).country)).length ∧
    (statOf ("US", demoCData)).avg_severity =
      (((get_events_for_date demoStore "2024-03-01").filter
          (fun e => e.source.country ==
            (statOf ("US", demoCData)).country)).map
          (fun e => (e.severity : ℚ))).sum /
        ((statOf ("US", demoCData)).total_events : ℚ) :=
  (C8_country_stats_sorted_and_consistent demoStore "2024-03-01").2
    (statOf ("US", demoCData)) (by
      norm_num [get_country_stats, get_events_for_date, demoStore, alookup,
        bumpCountry, bumpKey, statOf, demoCData, demoEvent1, demoEvent2]
      simp)
